import Mathlib

/-!
Shallow embedding of the core of the anndata-rs orchestration layer, covering
`src/anndata/src/container/collection.rs`, `src/anndata/src/anndata/dataset.rs`
and `src/anndata/src/data/array/dataframe.rs`.

Modelling conventions: `usize` is `Nat`; fallible Rust functions returning
`anyhow::Result` return `Except String`; in-place mutation of shared cells is
explicit state passing, and functions that mutate before a failure point return
the post-state together with the outcome, so that partial mutation on the error
path is observable.  `HashMap` / `IndexMap` values are association lists;
claims about them are stated through key membership and lookup, which is the
observable interface.  Types that live in files of the repository outside the
provided sources (data/index.rs, container/base.rs, anndata.rs) are modelled
from the spec and marked as such in their doc comments.
-/

/-- Rust enum `Axis` from collection.rs (lines 173-178). -/
inductive Axis where
  | Row
  | RowColumn
  | Pairwise
deriving DecidableEq, Repr

/-- Rust `DimLock::try_set` from collection.rs (lines 234-245).  A `Dim` cell is
an `Option Nat`; `try_set` fails when the cell already holds a different value,
writing nothing; otherwise it stores `n`.  The result is returned together with
the post-state of the cell. -/
def DimLock.try_set (cell : Option Nat) (n : Nat) : Except String Unit × Option Nat :=
  match cell with
  | some m =>
    if m ≠ n then (Except.error "dimension cannot be changed", some m)
    else (Except.ok (), some n)
  | none => (Except.ok (), some n)

/-- In-memory state of Rust `InnerAxisArrays` (collection.rs lines 252-258): the
axis kind, the shared `Dim` cells, the name-to-cached-shape map of the
`ArrayElem` handles, and the backing group modelled as a name-to-stored-shape
map. -/
structure InnerAxisArrays where
  axis : Axis
  dim1 : Option Nat
  dim2 : Option Nat
  data : List (String × List Nat)
  container : List (String × List Nat)
deriving DecidableEq, Repr

/-- Association-list update of the payload under an existing key, modelling
`elem.inner().save(data)` overwriting the backing bytes and cached shape. -/
def setAssoc (l : List (String × List Nat)) (k : String) (v : List Nat) :
    List (String × List Nat) :=
  l.map (fun p => if p.1 = k then (k, v) else p)

/-- Validation prefix of Rust `InnerAxisArrays::add_data` (collection.rs lines
301-321), returning the outcome together with the post-states of the two `Dim`
cells.  On the RowColumn axis the source calls `self.dim1.try_set(shape[0])?`
before `self.dim2...try_set(shape[1])?`, so `dim1` is already written when the
`dim2` check fails. -/
def InnerAxisArrays.validate (s : InnerAxisArrays) (shape : List Nat) :
    Except String Unit × Option Nat × Option Nat :=
  match s.axis with
  | Axis.Row =>
    let r := DimLock.try_set s.dim1 (shape.getD 0 0)
    (r.1, r.2, s.dim2)
  | Axis.RowColumn =>
    let r1 := DimLock.try_set s.dim1 (shape.getD 0 0)
    match r1.1 with
    | Except.error e => (Except.error e, r1.2, s.dim2)
    | Except.ok _ =>
      let r2 := DimLock.try_set s.dim2 (shape.getD 1 0)
      (r2.1, r1.2, r2.2)
  | Axis.Pairwise =>
    if shape.getD 0 0 = shape.getD 1 0 then
      let r := DimLock.try_set s.dim1 (shape.getD 0 0)
      (r.1, r.2, s.dim2)
    else
      (Except.error "expecting a square array", s.dim1, s.dim2)

/-- Write-through step of Rust `InnerAxisArrays::add_data` (collection.rs lines
323-331): for an absent key, write the data into the backing group and insert
the new handle; for a present key, overwrite the payload via `save`. -/
def InnerAxisArrays.install (s1 : InnerAxisArrays) (key : String) (shape : List Nat) :
    InnerAxisArrays :=
  match s1.data.lookup key with
  | none =>
    { s1 with
      container := (key, shape) :: s1.container,
      data := (key, shape) :: s1.data }
  | some _ =>
    { s1 with
      data := setAssoc s1.data key shape,
      container := setAssoc s1.container key shape }

/-- Rust `InnerAxisArrays::add_data` (collection.rs lines 301-332): validate the
shape against the axis contract, then, only on success, write through and
install the handle. -/
def InnerAxisArrays.add_data (s : InnerAxisArrays) (key : String) (shape : List Nat) :
    Except String Unit × InnerAxisArrays :=
  let v := s.validate shape
  let s1 : InnerAxisArrays := { s with dim1 := v.2.1, dim2 := v.2.2 }
  match v.1 with
  | Except.error e => (Except.error e, s1)
  | Except.ok _ => (Except.ok (), s1.install key shape)

/-- Loop of Rust `reverse_mapping` (dataset.rs lines 681-685): performs
`res[x] = i` for each `(i, x)` produced by `mapping.iter().enumerate()`. -/
def revMapGo (res : List Nat) (i : Nat) : List Nat → List Nat
  | [] => res
  | x :: rest => revMapGo (res.set x i) (i + 1) rest

/-- Rust `reverse_mapping` (dataset.rs lines 681-685): starts from `vec![0; n]`
and scatters each enumeration position to the slot named by the mapping. -/
def reverse_mapping (mapping : List Nat) (n : Nat) : List Nat :=
  revMapGo (List.replicate n 0) 0 mapping

/-- Tail of Rust `StackedAnnData::write_select` (dataset.rs lines 672-677): the
returned row order is `reverse_mapping` of the map produced by
`VecVecIndex::split_select`, when one was produced; `total` is the summed
length of the per-partition selections. -/
def StackedAnnData.write_select_order (mapping : Option (List Nat)) (total : Nat) :
    Option (List Nat) :=
  mapping.map (fun x => reverse_mapping x total)

/-- Row selection used for the annotation in Rust `AnnDataSet::write_select`
(dataset.rs lines 252-259): when an order was returned, the materialized row
indices `idx` of `sel[0]` are permuted through it (`order.iter().map(|i| idx[*i])`);
otherwise `sel[0]` is passed through unchanged. -/
def AnnDataSet.anno_row_sel (idx : List Nat) (order : Option (List Nat)) : List Nat :=
  match order with
  | some o => o.map (fun i => idx.getD i 0)
  | none => idx

/-- Emptiness and var-names checks of Rust `StackedAnnData::new` (dataset.rs
lines 568-582): each child contributes `var.lock().as_ref().map(|x| &x.index.names)`,
an optional list of names, and every child after the first must agree with the
first; disagreement is the error `var names mismatch`. -/
def StackedAnnData.check_var_names : List (Option (List String)) → Except String Unit
  | [] => Except.error "no AnnData objects to stack"
  | first :: rest =>
    if rest.all (fun x => x == first) then Except.ok ()
    else Except.error "var names mismatch"

/-- Obs-names computation of Rust `AnnDataSet::new` (dataset.rs lines 156-161):
each child is a pair of its obs names and its `n_obs`; the index handed to the
annotation is the concatenation of the children's obs names, or the strings
`0..n_obs-1` when that concatenation is empty. -/
def AnnDataSet.new_obs_names (children : List (List String × Nat)) : List String :=
  let n_obs := (children.map Prod.snd).sum
  let obs_names := children.flatMap Prod.fst
  if obs_names.isEmpty then (List.range n_obs).map (fun i => toString i)
  else obs_names

/-- Modelled from the spec: `AnnData::set_obs_names` lives in anndata.rs, which
is not among the provided sources.  Per sections 2 and 4.1 of the spec every
mutation first validates against the corresponding `Dim` via `try_set`, and the
annotation's n_obs `Dim` is already set by `AnnData::new`; so installing obs
names succeeds iff the index length equals `n_obs`. -/
def AnnData.set_obs_names (n_obs : Nat) (index : List String) : Except String Unit :=
  (DimLock.try_set (some n_obs) index.length).1

/-- Obs-names step of Rust `AnnDataSet::new` (dataset.rs lines 156-161) composed
with the spec-modelled `AnnData.set_obs_names`; returns the installed obs names. -/
def AnnDataSet.set_obs_names_step (children : List (List String × Nat)) :
    Except String (List String) :=
  let n_obs := (children.map Prod.snd).sum
  let names := AnnDataSet.new_obs_names children
  match AnnData.set_obs_names n_obs names with
  | Except.ok _ => Except.ok names
  | Except.error e => Except.error e

/-- Rust `StackedAxisArrays::new` (collection.rs lines 631-673).  Children are
modelled as optional pairs of axis and entries (`none` is an empty `Slot`);
element handles are abstract `Nat` tokens and `StackedArrayElem::new`
(container/base.rs, not among the provided sources) is abstracted by the
`canStack` predicate.  Any empty child yields the empty result; mismatched axes
are an error; otherwise exactly the keys shared by every child are stacked, and
a shared key whose elements cannot be stacked is dropped (the source logs a
warning for those keys). -/
def StackedAxisArrays.new (canStack : List Nat → Bool) (axis : Axis)
    (arrays : List (Option (Axis × List (String × Nat)))) :
    Except String (List (String × List Nat)) :=
  if arrays.any (fun a => a.isNone) then Except.ok []
  else if arrays.all (fun a => (a.getD (axis, [])).1 == axis) then
    let keySets : List (List String) :=
      arrays.map (fun a => ((a.getD (axis, [])).2.map Prod.fst))
    let shared : List String :=
      match keySets with
      | [] => []
      | k0 :: ks =>
        ks.foldl (fun (acc s : List String) => acc.filter (fun x => s.contains x)) k0
    Except.ok (shared.filterMap (fun k =>
      let elems : List Nat :=
        arrays.map (fun a => (((a.getD (axis, [])).2).lookup k).getD 0)
      if canStack elems then some (k, elems) else none))
  else Except.error "Axis mismatch"

/-- Modelled from the spec: the `Interval` record of the interval-compressed
index variant (data/index.rs, not among the provided sources): a compressed run
described by start, end, size and step; the `end` field is named `stop` here
because `end` is a reserved word. -/
structure IndexInterval where
  start : Nat
  stop : Nat
  size : Nat
  step : Nat
deriving DecidableEq, Repr

/-- Modelled from the spec: the `Index` sum type (data/index.rs, not among the
provided sources): an explicit list of string keys, an ordered mapping of name
to interval, or a half-open integer range. -/
inductive Index where
  | list (names : List String)
  | intervals (ivs : List (String × IndexInterval))
  | range (start stop : Nat)
deriving DecidableEq, Repr

/-- Modelled from the spec: materialization of an `Index` into the string
dataset written by `DataFrameIndex::overwrite` (the source collects
`self.clone().into_iter()`).  The list variant materializes to its own keys;
how the interval and range variants render their strings is internal to
data/index.rs (not among the provided sources), so those renderings are
abstracted by the parameters `ivStr` and `rangeStr`. -/
def Index.intoVec (ivStr : String → IndexInterval → List String)
    (rangeStr : Nat → Nat → List String) : Index → List String
  | Index.list ns => ns
  | Index.intervals ivs => ivs.flatMap (fun p => ivStr p.1 p.2)
  | Index.range a b => rangeStr a b

/-- Rust `DataFrameIndex` (dataframe.rs lines 320-324). -/
structure DataFrameIndex where
  index_name : String
  index : Index
deriving DecidableEq, Repr

/-- Rust `impl PartialEq for DataFrameIndex` (dataframe.rs lines 326-330):
equality compares only the underlying `index` field. -/
def DataFrameIndex.eqImpl (a b : DataFrameIndex) : Bool :=
  a.index == b.index

/-- State of the on-disk index container written by `DataFrameIndex::overwrite`:
the `_index` attribute, the string dataset stored under that name, and the
attributes on that dataset (`none` meaning the attribute is absent). -/
structure StoredIndex where
  index_name : String
  strings : List String
  index_type : Option String
  names : Option (List String)
  intervals : Option (List (Nat × Nat × Nat × Nat))
  startAttr : Option Nat
  stopAttr : Option Nat
deriving DecidableEq, Repr

/-- Rust `DataFrameIndex::overwrite` (dataframe.rs lines 391-427): store the
`_index` attribute and the materialized string dataset, then tag the variant
through the `index_type` attribute.  For the interval variant the backend may
refuse to store the `names` and `intervals` array attributes
(`new_array_attr(..).is_err()`), abstracted by `canStoreIntervalAttrs`; on
refusal the writer falls back to tagging the index as `list` (the source logs a
warning). -/
def DataFrameIndex.overwrite (ivStr : String → IndexInterval → List String)
    (rangeStr : Nat → Nat → List String) (idx : DataFrameIndex)
    (canStoreIntervalAttrs : Bool) : StoredIndex :=
  let strings := idx.index.intoVec ivStr rangeStr
  match idx.index with
  | Index.list _ =>
    ⟨idx.index_name, strings, some "list", none, none, none, none⟩
  | Index.intervals ivs =>
    if canStoreIntervalAttrs then
      ⟨idx.index_name, strings, some "intervals", some (ivs.map Prod.fst),
        some (ivs.map (fun p => (p.2.start, p.2.stop, p.2.size, p.2.step))), none, none⟩
    else
      ⟨idx.index_name, strings, some "list", none, none, none, none⟩
  | Index.range a b =>
    ⟨idx.index_name, strings, some "range", none, none, some a, some b⟩

/-- Rust `DataFrameIndex::read` (dataframe.rs lines 431-465): a missing
`index_type` attribute is read as `list` (`map_or("list", ..)`), the list branch
rebuilds the index from the stored strings and restores the stored `_index`
name, and the intervals and range branches rebuild the index from the dataset
attributes (their `FromIterator` and `From` constructions reset the index name
to the default `index`). -/
def DataFrameIndex.read (s : StoredIndex) : Except String DataFrameIndex :=
  match s.index_type.getD "list" with
  | "list" => Except.ok ⟨s.index_name, Index.list s.strings⟩
  | "intervals" =>
    match s.names, s.intervals with
    | some ks, some vs =>
      Except.ok ⟨"index",
        Index.intervals (ks.zip (vs.map (fun r => ⟨r.1, r.2.1, r.2.2.1, r.2.2.2⟩)))⟩
    | _, _ => Except.error "missing attribute"
  | "range" =>
    match s.startAttr, s.stopAttr with
    | some a, some b => Except.ok ⟨"index", Index.range a b⟩
    | _, _ => Except.error "missing attribute"
  | x => Except.error ("Unknown index type: " ++ x)

/-! ### Helper lemmas -/

theorem try_set_none (n : Nat) : DimLock.try_set none n = (Except.ok (), some n) := rfl

theorem try_set_same (n : Nat) : DimLock.try_set (some n) n = (Except.ok (), some n) := by
  simp [DimLock.try_set]

theorem try_set_diff {m n : Nat} (h : m ≠ n) :
    DimLock.try_set (some m) n = (Except.error "dimension cannot be changed", some m) := by
  simp [DimLock.try_set, h]

theorem try_set_ok_iff (cell : Option Nat) (n : Nat) :
    (DimLock.try_set cell n).1 = Except.ok () ↔ cell = none ∨ cell = some n := by
  cases cell with
  | none => simp [DimLock.try_set]
  | some m =>
    by_cases h : m = n
    · subst h; simp [DimLock.try_set]
    · simp [DimLock.try_set, h]

theorem try_set_snd_of_ok {cell : Option Nat} {n : Nat}
    (h : (DimLock.try_set cell n).1 = Except.ok ()) :
    (DimLock.try_set cell n).2 = some n := by
  rcases (try_set_ok_iff cell n).1 h with h' | h' <;> subst h'
  · rfl
  · simp [DimLock.try_set]

theorem try_set_snd_of_error {cell : Option Nat} {n : Nat} {e : String}
    (h : (DimLock.try_set cell n).1 = Except.error e) :
    (DimLock.try_set cell n).2 = cell := by
  cases cell with
  | none => simp [DimLock.try_set] at h
  | some m =>
    by_cases h' : m = n
    · subst h'; simp [DimLock.try_set] at h
    · simp [DimLock.try_set, h']

theorem revMapGo_length (rest : List Nat) :
    ∀ (res : List Nat) (i : Nat), (revMapGo res i rest).length = res.length := by
  induction rest with
  | nil => intro res i; rfl
  | cons x rest ih =>
    intro res i
    rw [revMapGo, ih]
    exact List.length_set res x i

theorem revMapGo_get_not_mem (rest : List Nat) :
    ∀ (res : List Nat) (i j : Nat), j ∉ rest →
      (revMapGo res i rest).get? j = res.get? j := by
  induction rest with
  | nil => intro res i j _; rfl
  | cons x rest ih =>
    intro res i j hj
    rw [revMapGo, ih _ _ _ (fun h => hj (List.mem_cons_of_mem _ h))]
    have hx : x ≠ j := fun h => hj (h ▸ List.mem_cons_self x rest)
    rw [List.get?_set, if_neg hx]

theorem revMapGo_get (rest : List Nat) :
    ∀ (res : List Nat) (i p j : Nat), rest.Nodup → rest.get? p = some j →
      j < res.length → (revMapGo res i rest).get? j = some (i + p) := by
  induction rest with
  | nil => intro res i p j _ hp _; simp at hp
  | cons x rest ih =>
    intro res i p j hnd hp hlt
    rw [List.nodup_cons] at hnd
    cases p with
    | zero =>
      have hx : x = j := by simpa using hp
      subst hx
      rw [revMapGo, revMapGo_get_not_mem rest _ _ _ hnd.1]
      rw [List.get?_set, if_pos rfl, List.get?_eq_get hlt]
      simp
    | succ p =>
      have hp' : rest.get? p = some j := by simpa using hp
      have hj : j ∈ rest := List.get?_mem hp'
      rw [revMapGo]
      have := ih (res.set x i) (i + 1) p j hnd.2 hp'
        (by rw [List.length_set]; exact hlt)
      rw [this]
      congr 1
      omega

/-! ### Claim theorems -/

/-- C2: for every `Dim` cell and every `n`, `try_set n` succeeds iff the cell is
unset or already holds exactly `n`, and on success the cell holds `n`; for every
`m ≠ n`, calling `try_set m` on a cell holding `n` fails and leaves the cell
holding `n`; and `try_set` is idempotent: after a successful `try_set n`, a
second `try_set n` succeeds and keeps `n`. -/
theorem C2_dim_try_set (cell : Option Nat) (n : Nat) :
    ((DimLock.try_set cell n).1 = Except.ok () ↔ cell = none ∨ cell = some n)
    ∧ ((DimLock.try_set cell n).1 = Except.ok () → (DimLock.try_set cell n).2 = some n)
    ∧ (∀ m, m ≠ n → DimLock.try_set (some n) m
        = (Except.error "dimension cannot be changed", some n))
    ∧ ((DimLock.try_set cell n).1 = Except.ok () →
        DimLock.try_set (DimLock.try_set cell n).2 n = (Except.ok (), some n)) := by
  refine ⟨try_set_ok_iff cell n, fun h => try_set_snd_of_ok h, ?_, fun h => ?_⟩
  · intro m hm
    exact try_set_diff (fun h => hm h.symm)
  · rw [try_set_snd_of_ok h]
    exact try_set_same n

/-- Witness for C2 at a concrete cell: a cell holding 5 accepts 5 twice. -/
theorem C2_dim_try_set_witness :
    (DimLock.try_set (some 5) 5).1 = Except.ok ()
    ∧ DimLock.try_set (DimLock.try_set (some 5) 5).2 5 = (Except.ok (), some 5) := by
  refine ⟨by rfl, (C2_dim_try_set (some 5) 5).2.2.2 (by rfl)⟩

/-- C10: `DataFrameIndex` equality compares only the index entries and ignores
`index_name`: whenever the underlying indices are equal, the comparison returns
true, for any two (possibly different) names. -/
theorem C10_eq_ignores_name (n1 n2 : String) (i1 i2 : Index) (h : i1 = i2) :
    DataFrameIndex.eqImpl ⟨n1, i1⟩ ⟨n2, i2⟩ = true := by
  subst h
  simp [DataFrameIndex.eqImpl]

/-- Witness for C10 at concrete values with differing names. -/
theorem C10_eq_ignores_name_witness :
    DataFrameIndex.eqImpl ⟨"x", Index.list ["k"]⟩ ⟨"y", Index.list ["k"]⟩ = true :=
  C10_eq_ignores_name "x" "y" (Index.list ["k"]) (Index.list ["k"]) rfl

/-- C8: when `DataFrameIndex::read` finds no `index_type` attribute on the index
dataset, it interprets the stored index as the list variant: it returns a list
index whose entries are the stored strings (with the stored `_index` name),
rather than failing. -/
theorem C8_missing_index_type (s : StoredIndex) (h : s.index_type = none) :
    DataFrameIndex.read s = Except.ok ⟨s.index_name, Index.list s.strings⟩ := by
  unfold DataFrameIndex.read
  rw [h]
  rfl

/-- Witness for C8 at a concrete stored index with no `index_type` attribute. -/
theorem C8_missing_index_type_witness :
    DataFrameIndex.read ⟨"nm", ["p", "q"], none, none, none, none, none⟩
      = Except.ok ⟨"nm", Index.list ["p", "q"]⟩ :=
  C8_missing_index_type ⟨"nm", ["p", "q"], none, none, none, none, none⟩ rfl

/-- C7: the var-names check of `StackedAnnData::new` succeeds iff every child
agrees with the first child's var names (same names, same order), and whenever
two children disagree it fails with the error `var names mismatch`. -/
theorem C7_var_names_check (first : Option (List String))
    (rest : List (Option (List String))) :
    (StackedAnnData.check_var_names (first :: rest) = Except.ok ()
      ↔ ∀ x ∈ rest, x = first)
    ∧ (∀ x ∈ first :: rest, ∀ y ∈ first :: rest, x ≠ y →
        StackedAnnData.check_var_names (first :: rest)
          = Except.error "var names mismatch") := by
  have hiff : (rest.all fun x => x == first) = true ↔ ∀ x ∈ rest, x = first := by
    simp [List.all_eq_true]
  constructor
  · by_cases h : ∀ x ∈ rest, x = first
    · have hall : (rest.all fun x => x == first) = true := hiff.mpr h
      simp only [StackedAnnData.check_var_names, hall, if_true]
      simp only [true_iff]
      exact h
    · have hall : (rest.all fun x => x == first) = false := by
        rw [Bool.eq_false_iff]
        exact fun hc => h (hiff.mp hc)
      simp [StackedAnnData.check_var_names, hall, h]
  · intro x hx y hy hxy
    have hne : ∃ z ∈ rest, z ≠ first := by
      rcases List.mem_cons.1 hx with rfl | hx'
      · rcases List.mem_cons.1 hy with rfl | hy'
        · exact absurd rfl hxy
        · exact ⟨y, hy', fun h => hxy h.symm⟩
      · by_cases hxf : x = first
        · rcases List.mem_cons.1 hy with rfl | hy'
          · exact absurd hxf hxy
          · exact ⟨y, hy', fun h => hxy (hxf.trans h.symm)⟩
        · exact ⟨x, hx', hxf⟩
    have hall : (rest.all fun x => x == first) = false := by
      rw [Bool.eq_false_iff]
      rcases hne with ⟨z, hz, hzf⟩
      exact fun hc => hzf ((hiff.mp hc) z hz)
    simp [StackedAnnData.check_var_names, hall]

/-- Witness for C7 at concrete children: two children with differing var names. -/
theorem C7_var_names_check_witness :
    StackedAnnData.check_var_names [some ["a"], some ["b"]]
      = Except.error "var names mismatch" :=
  (C7_var_names_check (some ["a"]) [some ["b"]]).2 (some ["a"]) (by decide)
    (some ["b"]) (by decide) (by decide)

/-- C6: for every mapping of length `n` that is a permutation of the set of
naturals below `n` (no duplicates, every entry below `n`), `reverse_mapping`
composed with the mapping is the identity: the entry of
`reverse_mapping m n` at position `m[i]` is `i`, for every `i < n`. -/
theorem C6_reverse_mapping (m : List Nat) (n : Nat) (hlen : m.length = n)
    (hnd : m.Nodup) (hmem : ∀ x ∈ m, x < n) :
    ∀ i, i < n → (reverse_mapping m n).get? (m.getD i 0) = some i := by
  intro i hi
  have hi' : i < m.length := by omega
  have hget : m.get? i = some (m.getD i 0) := by
    rw [List.getD_eq_get?]
    rcases List.get?_eq_some.2 ⟨hi', rfl⟩ with h
    rw [List.get?_eq_get hi']
    rfl
  have hj : m.getD i 0 ∈ m := List.get?_mem hget
  have hjlt : m.getD i 0 < (List.replicate n (0 : Nat)).length := by
    rw [List.length_replicate]
    exact hmem _ hj
  have := revMapGo_get m (List.replicate n 0) 0 i (m.getD i 0) hnd hget hjlt
  rw [reverse_mapping, this]
  rw [Nat.zero_add]

/-- Witness for C6 at the concrete permutation `[2, 0, 1]` of three elements. -/
theorem C6_reverse_mapping_witness :
    (reverse_mapping [2, 0, 1] 3).get? ([2, 0, 1].getD 1 0) = some 1 :=
  C6_reverse_mapping [2, 0, 1] 3 (by decide) (by decide) (by decide) 1 (by decide)

/-- C3: in `AnnDataSet::write_select`, whenever `split_select` produced a
reordering map (a permutation of the positions of the selected rows), the
returned order is its `reverse_mapping`, the annotation is written through
the row indices of `sel[0]` permuted by that order, and the permuted selection
places the original row `idx[i]` at the stacked destination row `mapping[i]` —
so the annotation's rows align with the row order of the stacked per-child
output; when no map was produced, `None` is returned and `sel[0]` is passed
through unchanged. -/
theorem C3_write_select_order (mapping idx : List Nat) (total : Nat)
    (hlen : total = idx.length) (hmlen : mapping.length = total)
    (hnd : mapping.Nodup) (hmem : ∀ x ∈ mapping, x < total) :
    (StackedAnnData.write_select_order (some mapping) total
        = some (reverse_mapping mapping total))
    ∧ (∀ i, i < total →
        (AnnDataSet.anno_row_sel idx
            (StackedAnnData.write_select_order (some mapping) total)).get?
            (mapping.getD i 0)
          = some (idx.getD i 0))
    ∧ StackedAnnData.write_select_order none total = none
    ∧ AnnDataSet.anno_row_sel idx (StackedAnnData.write_select_order none total)
        = idx := by
  refine ⟨rfl, ?_, rfl, rfl⟩
  intro i hi
  have hi' : i < mapping.length := by omega
  have hget : mapping.get? i = some (mapping.getD i 0) := by
    rw [List.getD_eq_get?, List.get?_eq_get hi']
    rfl
  have hj : mapping.getD i 0 ∈ mapping := List.get?_mem hget
  have hjlt : mapping.getD i 0 < (List.replicate total (0 : Nat)).length := by
    rw [List.length_replicate]
    exact hmem _ hj
  have hrm : (reverse_mapping mapping total).get? (mapping.getD i 0) = some i := by
    have := revMapGo_get mapping (List.replicate total 0) 0 i (mapping.getD i 0)
      hnd hget hjlt
    rw [reverse_mapping, this, Nat.zero_add]
  show ((reverse_mapping mapping total).map (fun i => idx.getD i 0)).get?
      (mapping.getD i 0) = some (idx.getD i 0)
  rw [List.get?_map, hrm]
  rfl

/-- Witness for C3 at the concrete map `[1, 2, 0]` over row indices `[7, 0, 4]`. -/
theorem C3_write_select_order_witness :
    (StackedAnnData.write_select_order (some [1, 2, 0]) 3
        = some (reverse_mapping [1, 2, 0] 3))
    ∧ (∀ i, i < 3 →
        (AnnDataSet.anno_row_sel [7, 0, 4]
            (StackedAnnData.write_select_order (some [1, 2, 0]) 3)).get?
            ([1, 2, 0].getD i 0)
          = some ([7, 0, 4].getD i 0))
    ∧ StackedAnnData.write_select_order none 3 = none
    ∧ AnnDataSet.anno_row_sel [7, 0, 4] (StackedAnnData.write_select_order none 3)
        = [7, 0, 4] :=
  C3_write_select_order [1, 2, 0] [7, 0, 4] 3 (by decide) (by decide) (by decide)
    (by decide)

/-- C5 as stated is false at a concrete input: with children whose obs names and
n_obs are `(["a"], 1)` and `([], 1)`, one child has empty obs names, yet the
index computed for the annotation is `["a"]` — not the strings `0..n_obs-1` —
its length is 1 and not `n_obs = 2`, and installing it fails on the n_obs Dim. -/
theorem C5_counterexample :
    ((([] : List String), 1) ∈ [((["a"] : List String), 1), (([] : List String), 1)])
    ∧ AnnDataSet.new_obs_names [(["a"], 1), ([], 1)] = ["a"]
    ∧ AnnDataSet.new_obs_names [(["a"], 1), ([], 1)]
        ≠ (List.range 2).map (fun i => toString i)
    ∧ (AnnDataSet.new_obs_names [(["a"], 1), ([], 1)]).length
        ≠ ([((["a"] : List String), 1), (([] : List String), 1)].map Prod.snd).sum
    ∧ AnnDataSet.set_obs_names_step [(["a"], 1), ([], 1)]
        = Except.error "dimension cannot be changed" := by
  refine ⟨by decide, by rfl, by decide, by decide, by rfl⟩

/-- C5 (amended): `AnnDataSet::new` hands the annotation the concatenation of
the children's obs names, except that it uses the strings `0..n_obs-1` when
that concatenation is empty — that is, when every child has empty obs names,
not when merely some child does; whenever the subsequent install succeeds (the
fallback case always does), the resulting obs names have length `n_obs`, the
sum of the children's n_obs. -/
theorem C5_amended_obs_names (children : List (List String × Nat)) :
    (children.flatMap Prod.fst = [] →
      AnnDataSet.new_obs_names children
          = (List.range ((children.map Prod.snd).sum)).map (fun i => toString i)
        ∧ AnnDataSet.set_obs_names_step children
          = Except.ok ((List.range ((children.map Prod.snd).sum)).map
              (fun i => toString i)))
    ∧ (children.flatMap Prod.fst ≠ [] →
        AnnDataSet.new_obs_names children = children.flatMap Prod.fst)
    ∧ (∀ r, AnnDataSet.set_obs_names_step children = Except.ok r →
        r.length = (children.map Prod.snd).sum) := by
  refine ⟨fun h => ?_, fun h => ?_, fun r h => ?_⟩
  · have hnames : AnnDataSet.new_obs_names children
        = (List.range ((children.map Prod.snd).sum)).map (fun i => toString i) := by
      simp [AnnDataSet.new_obs_names, h]
    refine ⟨hnames, ?_⟩
    have hlen : ((List.range ((children.map Prod.snd).sum)).map
        (fun i => toString i)).length = (children.map Prod.snd).sum := by
      simp
    have hset : AnnData.set_obs_names ((children.map Prod.snd).sum)
        (AnnDataSet.new_obs_names children) = Except.ok () := by
      unfold AnnData.set_obs_names
      rw [hnames, hlen, try_set_same]
    rw [hnames] at hset
    simp [AnnDataSet.set_obs_names_step, hnames, hset]
  · have hne : (children.flatMap Prod.fst).isEmpty = false := by
      rw [Bool.eq_false_iff]
      exact fun hc => h (List.isEmpty_iff.mp hc)
    simp [AnnDataSet.new_obs_names, hne]
  · simp only [AnnDataSet.set_obs_names_step] at h
    cases hset : AnnData.set_obs_names ((children.map Prod.snd).sum)
        (AnnDataSet.new_obs_names children) with
    | ok u =>
      rw [hset] at h
      simp only [Except.ok.injEq] at h
      subst h
      have hok := hset
      unfold AnnData.set_obs_names at hok
      have := (try_set_ok_iff (some ((children.map Prod.snd).sum))
        (AnnDataSet.new_obs_names children).length).1 hok
      rcases this with h' | h'
      · exact absurd h' (by simp)
      · have := Option.some.inj h'
        omega
    | error e =>
      rw [hset] at h
      simp at h

/-- Witness for the amended C5 at concrete children that all have empty obs
names: the fallback numeric index is chosen and installed. -/
theorem C5_amended_obs_names_witness :
    AnnDataSet.new_obs_names [(([] : List String), 2), (([] : List String), 1)]
      = (List.range (([((([] : List String)), 2), ((([] : List String)), 1)].map
          Prod.snd).sum)).map (fun i => toString i) :=
  ((C5_amended_obs_names [([], 2), ([], 1)]).1 (by decide)).1

/-- C1 as stated is false: on a RowColumn collection with dim1 unset and dim2
already set to 7, adding `A` of shape (5, 4) fails validation (dim2 mismatch),
the entry map and backing group are unchanged, but the shared dim1 has been
mutated from unset to 5 by the `dim1.try_set` performed before the dim2 check. -/
theorem C1_counterexample :
    ((InnerAxisArrays.add_data ⟨Axis.RowColumn, none, some 7, [], []⟩ "A" [5, 4]).1
        = Except.error "dimension cannot be changed")
    ∧ (InnerAxisArrays.add_data ⟨Axis.RowColumn, none, some 7, [], []⟩ "A" [5, 4]).2.dim1
        = some 5
    ∧ (InnerAxisArrays.mk Axis.RowColumn none (some 7) [] []).dim1 = none := by
  refine ⟨rfl, rfl, rfl⟩

/-- C1 (amended): `add_data` validates the shape against the axis contract
before writing — Row requires `shape[0]` to agree with dim1, RowColumn requires
`shape[0]` with dim1 and `shape[1]` with dim2, Pairwise requires a square shape
agreeing with dim1 — and on validation failure it returns an error with the
entry map, the backing group and dim2 unchanged; dim1 is also unchanged on Row
and Pairwise axes, while on a RowColumn axis it may go from unset to `shape[0]`
when the dim2 check is what fails.  In particular a Row collection with dim1
set to 10 rejects a (9, 4) array leaving everything unchanged, and a Pairwise
collection rejects a (5, 4) array. -/
theorem C1_amended_add_data :
    (∀ (s : InnerAxisArrays) (key : String) (shape : List Nat),
      ((s.add_data key shape).1 = Except.ok () ↔
        (match s.axis with
         | Axis.Row => s.dim1 = none ∨ s.dim1 = some (shape.getD 0 0)
         | Axis.RowColumn =>
            (s.dim1 = none ∨ s.dim1 = some (shape.getD 0 0))
            ∧ (s.dim2 = none ∨ s.dim2 = some (shape.getD 1 0))
         | Axis.Pairwise =>
            shape.getD 0 0 = shape.getD 1 0
            ∧ (s.dim1 = none ∨ s.dim1 = some (shape.getD 0 0)))))
    ∧ (∀ (s : InnerAxisArrays) (key : String) (shape : List Nat) (e : String),
        (s.add_data key shape).1 = Except.error e →
          (s.add_data key shape).2.data = s.data
          ∧ (s.add_data key shape).2.container = s.container
          ∧ (s.add_data key shape).2.dim2 = s.dim2
          ∧ (s.axis = Axis.Row ∨ s.axis = Axis.Pairwise →
              (s.add_data key shape).2.dim1 = s.dim1)
          ∧ ((s.add_data key shape).2.dim1 = s.dim1
             ∨ (s.axis = Axis.RowColumn ∧ s.dim1 = none
                ∧ (s.add_data key shape).2.dim1 = some (shape.getD 0 0))))
    ∧ (∀ (d2 : Option Nat) (da co : List (String × List Nat)) (key : String),
        InnerAxisArrays.add_data ⟨Axis.Row, some 10, d2, da, co⟩ key [9, 4]
          = (Except.error "dimension cannot be changed",
             ⟨Axis.Row, some 10, d2, da, co⟩))
    ∧ (∀ (d1 d2 : Option Nat) (da co : List (String × List Nat)) (key : String),
        InnerAxisArrays.add_data ⟨Axis.Pairwise, d1, d2, da, co⟩ key [5, 4]
          = (Except.error "expecting a square array",
             ⟨Axis.Pairwise, d1, d2, da, co⟩)) := by
  refine ⟨?_, ?_, ?_, ?_⟩
  · intro s key shape
    obtain ⟨ax, d1, d2, da, co⟩ := s
    cases ax with
    | Row =>
      cases d1 with
      | none => simp [InnerAxisArrays.add_data, InnerAxisArrays.validate, DimLock.try_set]
      | some m =>
        by_cases h : m = shape[0]?.getD 0
        · subst h
          simp [InnerAxisArrays.add_data, InnerAxisArrays.validate, DimLock.try_set]
        · simp [InnerAxisArrays.add_data, InnerAxisArrays.validate, DimLock.try_set, h]
    | RowColumn =>
      cases d1 with
      | none =>
        cases d2 with
        | none => simp [InnerAxisArrays.add_data, InnerAxisArrays.validate, DimLock.try_set]
        | some m2 =>
          by_cases h2 : m2 = shape[1]?.getD 0
          · subst h2
            simp [InnerAxisArrays.add_data, InnerAxisArrays.validate, DimLock.try_set]
          · simp [InnerAxisArrays.add_data, InnerAxisArrays.validate, DimLock.try_set, h2]
      | some m1 =>
        by_cases h1 : m1 = shape[0]?.getD 0
        · subst h1
          cases d2 with
          | none => simp [InnerAxisArrays.add_data, InnerAxisArrays.validate, DimLock.try_set]
          | some m2 =>
            by_cases h2 : m2 = shape[1]?.getD 0
            · subst h2
              simp [InnerAxisArrays.add_data, InnerAxisArrays.validate, DimLock.try_set]
            · simp [InnerAxisArrays.add_data, InnerAxisArrays.validate, DimLock.try_set, h2]
        · simp [InnerAxisArrays.add_data, InnerAxisArrays.validate, DimLock.try_set, h1]
    | Pairwise =>
      by_cases hsq : shape[0]?.getD 0 = shape[1]?.getD 0
      · cases d1 with
        | none =>
          simp [InnerAxisArrays.add_data, InnerAxisArrays.validate, DimLock.try_set, hsq]
        | some m =>
          by_cases h : m = shape[0]?.getD 0
          · subst h
            simp [InnerAxisArrays.add_data, InnerAxisArrays.validate, DimLock.try_set, hsq]
          · have h1 : ¬m = shape[1]?.getD 0 := by rw [← hsq]; exact h
            simp [InnerAxisArrays.add_data, InnerAxisArrays.validate, DimLock.try_set, hsq, h, h1]
      · simp [InnerAxisArrays.add_data, InnerAxisArrays.validate, DimLock.try_set, hsq]
  · intro s key shape e h
    obtain ⟨ax, d1, d2, da, co⟩ := s
    cases ax with
    | Row =>
      cases d1 with
      | none =>
        simp [InnerAxisArrays.add_data, InnerAxisArrays.validate, DimLock.try_set] at h
      | some m =>
        by_cases hm : m = shape[0]?.getD 0
        · subst hm
          simp [InnerAxisArrays.add_data, InnerAxisArrays.validate, DimLock.try_set] at h
        · simp [InnerAxisArrays.add_data, InnerAxisArrays.validate, DimLock.try_set, hm]
    | RowColumn =>
      cases d1 with
      | none =>
        cases d2 with
        | none =>
          simp [InnerAxisArrays.add_data, InnerAxisArrays.validate, DimLock.try_set] at h
        | some m2 =>
          by_cases h2 : m2 = shape[1]?.getD 0
          · subst h2
            simp [InnerAxisArrays.add_data, InnerAxisArrays.validate, DimLock.try_set] at h
          · simp [InnerAxisArrays.add_data, InnerAxisArrays.validate, DimLock.try_set, h2]
      | some m1 =>
        by_cases h1 : m1 = shape[0]?.getD 0
        · subst h1
          cases d2 with
          | none =>
            simp [InnerAxisArrays.add_data, InnerAxisArrays.validate, DimLock.try_set] at h
          | some m2 =>
            by_cases h2 : m2 = shape[1]?.getD 0
            · subst h2
              simp [InnerAxisArrays.add_data, InnerAxisArrays.validate, DimLock.try_set] at h
            · simp [InnerAxisArrays.add_data, InnerAxisArrays.validate, DimLock.try_set, h2]
        · simp [InnerAxisArrays.add_data, InnerAxisArrays.validate, DimLock.try_set, h1]
    | Pairwise =>
      by_cases hsq : shape[0]?.getD 0 = shape[1]?.getD 0
      · cases d1 with
        | none =>
          simp [InnerAxisArrays.add_data, InnerAxisArrays.validate, DimLock.try_set, hsq] at h
        | some m =>
          by_cases hm : m = shape[0]?.getD 0
          · subst hm
            simp [InnerAxisArrays.add_data, InnerAxisArrays.validate, DimLock.try_set, hsq] at h
          · have h1 : ¬m = shape[1]?.getD 0 := by rw [← hsq]; exact hm
            simp [InnerAxisArrays.add_data, InnerAxisArrays.validate, DimLock.try_set, hsq, hm, h1]
      · simp [InnerAxisArrays.add_data, InnerAxisArrays.validate, DimLock.try_set, hsq]
  · intro d2 da co key
    rfl
  · intro d1 d2 da co key
    simp [InnerAxisArrays.add_data, InnerAxisArrays.validate]

/-- Witness for the amended C1: the concrete Row scenario with dim1 set to 10
and a (9, 4) array, with the error conclusions instantiated. -/
theorem C1_amended_add_data_witness :
    (InnerAxisArrays.add_data ⟨Axis.Row, some 10, none, [], []⟩ "C" [9, 4]).2.data = []
    ∧ (InnerAxisArrays.add_data ⟨Axis.Row, some 10, none, [], []⟩ "C" [9, 4]).2.dim1
        = some 10 := by
  have h := C1_amended_add_data.2.1 ⟨Axis.Row, some 10, none, [], []⟩ "C" [9, 4]
    "dimension cannot be changed" (by rfl)
  exact ⟨h.1, h.2.2.2.1 (Or.inl rfl)⟩

theorem zip_fst_tuple_eta (ivs : List (String × IndexInterval)) :
    (ivs.map Prod.fst).zip
        ((ivs.map (fun p => (p.2.start, p.2.stop, p.2.size, p.2.step))).map
          (fun r => (⟨r.1, r.2.1, r.2.2.1, r.2.2.2⟩ : IndexInterval)))
      = ivs := by
  rw [List.map_map, List.zip_map']
  have : (fun (p : String × IndexInterval) =>
      (p.1, ((fun r => (⟨r.1, r.2.1, r.2.2.1, r.2.2.2⟩ : IndexInterval)) ∘
        fun p => (p.2.start, p.2.stop, p.2.size, p.2.step)) p)) = fun p => p := by
    funext p
    rfl
  rw [this]
  simp

/-- C4: reading back what `DataFrameIndex::overwrite` stored yields an index
equal to the original in each of the three variants (equality of the underlying
`index`, which is what the `PartialEq` of `DataFrameIndex` compares); in the
intervals case, when the backend rejects storing the per-interval attributes
the writer tags `index_type` as `list` and the read-back index is the list
materialization of the same keys, equal to it entry for entry. -/
theorem C4_index_roundtrip (ivStr : String → IndexInterval → List String)
    (rangeStr : Nat → Nat → List String) :
    (∀ (name : String) (xs : List String) (b : Bool),
      DataFrameIndex.read (DataFrameIndex.overwrite ivStr rangeStr ⟨name, Index.list xs⟩ b)
        = Except.ok ⟨name, Index.list xs⟩)
    ∧ (∀ (name : String) (a c : Nat) (b : Bool),
      DataFrameIndex.read (DataFrameIndex.overwrite ivStr rangeStr ⟨name, Index.range a c⟩ b)
        = Except.ok ⟨"index", Index.range a c⟩)
    ∧ (∀ (name : String) (ivs : List (String × IndexInterval)),
      DataFrameIndex.read
          (DataFrameIndex.overwrite ivStr rangeStr ⟨name, Index.intervals ivs⟩ true)
        = Except.ok ⟨"index", Index.intervals ivs⟩)
    ∧ (∀ (name : String) (ivs : List (String × IndexInterval)),
      (DataFrameIndex.overwrite ivStr rangeStr ⟨name, Index.intervals ivs⟩ false).index_type
          = some "list"
        ∧ DataFrameIndex.read
            (DataFrameIndex.overwrite ivStr rangeStr ⟨name, Index.intervals ivs⟩ false)
          = Except.ok ⟨name, Index.list ((Index.intervals ivs).intoVec ivStr rangeStr)⟩) := by
  refine ⟨fun name xs b => rfl, fun name a c b => rfl, fun name ivs => ?_, fun name ivs => ⟨rfl, rfl⟩⟩
  show Except.ok (DataFrameIndex.mk "index" (Index.intervals
    ((ivs.map Prod.fst).zip
      ((ivs.map (fun p => (p.2.start, p.2.stop, p.2.size, p.2.step))).map
        (fun r => (⟨r.1, r.2.1, r.2.2.1, r.2.2.2⟩ : IndexInterval))))))
    = Except.ok ⟨"index", Index.intervals ivs⟩
  rw [zip_fst_tuple_eta]

theorem foldl_filter_mem (ks : List (List String)) :
    ∀ (k0 : List String) (x : String),
      (x ∈ ks.foldl (fun (acc s : List String) => acc.filter (fun y => s.contains y)) k0
        ↔ x ∈ k0 ∧ ∀ s ∈ ks, x ∈ s) := by
  induction ks with
  | nil => intro k0 x; simp
  | cons s ks ih =>
    intro k0 x
    rw [List.foldl_cons, ih]
    simp only [List.mem_filter, List.mem_cons]
    constructor
    · rintro ⟨⟨hk0, hs⟩, hrest⟩
      refine ⟨hk0, fun t ht => ?_⟩
      rcases ht with rfl | ht
      · simpa using hs
      · exact hrest t ht
    · rintro ⟨hk0, hall⟩
      exact ⟨⟨hk0, by simpa using hall s (Or.inl rfl)⟩, fun t ht => hall t (Or.inr ht)⟩

theorem mem_map_fst_filterMap_stack (shared : List String) (g : String → List Nat)
    (canStack : List Nat → Bool) (k : String) :
    (k ∈ (shared.filterMap
        (fun k' => if canStack (g k') then some (k', g k') else none)).map Prod.fst
      ↔ k ∈ shared ∧ canStack (g k) = true) := by
  rw [List.mem_map]
  constructor
  · rintro ⟨⟨k', v⟩, hmem, hfst⟩
    rw [List.mem_filterMap] at hmem
    rcases hmem with ⟨a, ha, hif⟩
    by_cases hc : canStack (g a) = true
    · rw [if_pos hc] at hif
      have h' := Option.some.inj hif
      rw [Prod.mk.injEq] at h'
      obtain ⟨ha', hv⟩ := h'
      subst ha'
      subst hfst
      exact ⟨ha, hc⟩
    · rw [if_neg hc] at hif
      exact absurd hif (by simp)
  · rintro ⟨hmem, hc⟩
    refine ⟨(k, g k), ?_, rfl⟩
    rw [List.mem_filterMap]
    exact ⟨k, hmem, by rw [if_pos hc]⟩

/-- C9: given children with matching axes and no empty slot,
`StackedAxisArrays::new` succeeds and stacks exactly the keys present in every
child (the intersection of the key sets) whose elements can be stacked; a key
present in only some children is silently omitted, and a shared key whose
elements cannot be stacked is dropped rather than making `new` fail. -/
theorem C9_stacked_new (canStack : List Nat → Bool) (axis : Axis)
    (arrays : List (Option (Axis × List (String × Nat))))
    (h1 : ∀ a ∈ arrays, a.isSome = true)
    (h2 : ∀ a ∈ arrays, (a.getD (axis, [])).1 = axis) :
    ∃ d, StackedAxisArrays.new canStack axis arrays = Except.ok d
      ∧ ∀ k : String, k ∈ d.map Prod.fst ↔
          (arrays ≠ []
           ∧ (∀ a ∈ arrays, k ∈ (a.getD (axis, [])).2.map Prod.fst)
           ∧ canStack (arrays.map
               (fun a => (((a.getD (axis, [])).2).lookup k).getD 0)) = true) := by
  have hany : (arrays.any fun a => a.isNone) = false := by
    rw [Bool.eq_false_iff]
    intro hc
    rw [List.any_eq_true] at hc
    rcases hc with ⟨a, ha, hnone⟩
    have := h1 a ha
    simp [Option.isNone_iff_eq_none] at hnone
    rw [hnone] at this
    simp at this
  have hall : (arrays.all fun a => (a.getD (axis, [])).1 == axis) = true := by
    rw [List.all_eq_true]
    intro a ha
    rw [beq_iff_eq]
    exact h2 a ha
  refine ⟨_, by rw [StackedAxisArrays.new, hany, hall]; rfl, ?_⟩
  intro k
  rw [mem_map_fst_filterMap_stack]
  cases arrays with
  | nil => simp
  | cons a0 rest =>
    simp only [List.map_cons]
    rw [foldl_filter_mem]
    constructor
    · rintro ⟨⟨hk0, hrest⟩, hc⟩
      refine ⟨by simp, fun a ha => ?_, hc⟩
      rcases List.mem_cons.1 ha with rfl | ha'
      · simpa using hk0
      · have := hrest ((a.getD (axis, [])).2.map Prod.fst) (List.mem_map_of_mem _ ha')
        simpa using this
    · rintro ⟨-, hmem, hc⟩
      refine ⟨⟨?_, ?_⟩, hc⟩
      · simpa using hmem a0 (List.mem_cons_self a0 rest)
      · intro s hs
        rw [List.mem_map] at hs
        rcases hs with ⟨a, ha', rfl⟩
        simpa using hmem a (List.mem_cons_of_mem a0 ha')

/-- Witness for C9 at concrete children sharing the key `a`, where the key `b`
is present in only one child and hence omitted. -/
theorem C9_stacked_new_witness :
    ∃ d, StackedAxisArrays.new (fun _ => true) Axis.Row
        [some (Axis.Row, [("a", 1)]), some (Axis.Row, [("a", 2), ("b", 3)])]
        = Except.ok d
      ∧ ∀ k : String, k ∈ d.map Prod.fst ↔
          (([some (Axis.Row, [("a", 1)]), some (Axis.Row, [("a", 2), ("b", 3)])]
              : List (Option (Axis × List (String × Nat)))) ≠ []
           ∧ (∀ a ∈ ([some (Axis.Row, [("a", 1)]), some (Axis.Row, [("a", 2), ("b", 3)])]
              : List (Option (Axis × List (String × Nat)))),
                k ∈ (a.getD (Axis.Row, [])).2.map Prod.fst)
           ∧ (fun (_ : List Nat) => true) ([some (Axis.Row, [("a", 1)]),
                some (Axis.Row, [("a", 2), ("b", 3)])].map
               (fun a => (((a.getD (Axis.Row, [])).2).lookup k).getD 0)) = true) :=
  C9_stacked_new (fun _ => true) Axis.Row
    [some (Axis.Row, [("a", 1)]), some (Axis.Row, [("a", 2), ("b", 3)])]
    (by decide) (by decide)
